import Mathlib

/-!
Verification of the conversion front-end of the autocxx engine
(`src/engine/src/conversion/error_reporter.rs`,
`src/engine/src/conversion/parse/parse_bindgen.rs`).

The Rust code is shallowly embedded: each Rust function that the claims
depend on becomes a Lean definition with the same name (camel-cased),
translated clause by clause from the source.  Supporting value types whose
defining modules are not part of the shown sources (`QualifiedName`,
`ApiName`, `ApiVec`, `ErrorContext`, `IncludeCppConfig`, the identifier
validator, the utility generator and the foreign-mod converter) are
modelled from the specification and marked as such in their doc comments.
-/

deriving instance DecidableEq for Except

namespace Autocxx

/-- A C++/bindgen namespace: an ordered list of path segments, outer to
inner.  Modelled from the spec: "an ordered sequence of path segments
(outer to inner) ... The empty namespace is the root", extended by
appending a segment (`Namespace::push`). -/
abbrev NamespaceR := List String

/-- `Namespace::new()`: the empty (root) namespace. -/
def NamespaceR.new : NamespaceR := ([] : List String)

/-- `Namespace::push`: child namespace obtained by appending a segment. -/
def NamespaceR.push (ns : NamespaceR) (seg : String) : NamespaceR :=
  (ns : List String) ++ [seg]

/-- `Namespace::is_empty`. -/
def NamespaceR.is_empty (ns : NamespaceR) : Bool :=
  (ns : List String).isEmpty

/-- A fully qualified name: a namespace plus a terminal identifier.
Modelled from the spec: "a namespace plus a terminal identifier; the
canonical identity used for lookup, deduplication, and error messages.
Two qualified names are equal iff their namespace and identifier are
equal." -/
structure QualifiedName where
  ns : NamespaceR
  id : String
deriving DecidableEq, Repr

/-- `QualifiedName::new`. -/
def QualifiedName.new (ns : NamespaceR) (id : String) : QualifiedName :=
  ⟨ns, id⟩

/-- `QualifiedName::get_namespace`. -/
def QualifiedName.get_namespace (qn : QualifiedName) : NamespaceR := qn.ns

/-- `QualifiedName::get_final_ident`. -/
def QualifiedName.get_final_ident (qn : QualifiedName) : String := qn.id

/-- Modelled from the spec: the external (C++) spelling of a qualified
name, namespace segments and identifier joined by `::` (an item in the
root namespace is spelt by its bare identifier).  Stands in for
`QualifiedName::to_cpp_name`, whose defining module is not among the
shown sources. -/
def QualifiedName.to_cpp_name (qn : QualifiedName) : String :=
  String.intercalate "::" ((qn.ns : List String) ++ [qn.id])

/-- Modelled from the spec: `QualifiedName::new_from_cpp_name` splits a
`::`-separated C++ name into namespace segments plus a final identifier. -/
def QualifiedName.new_from_cpp_name (s : String) : QualifiedName :=
  let segs := s.splitOn "::"
  ⟨(segs.dropLast : List String), segs.getLast!⟩

/-- Modelled from the spec: `QualifiedName::from_type_path` on the
reconstructed `segs :: old_id` path — leading segments become the
namespace, the last segment the identifier. -/
def QualifiedName.from_type_path (segs : List String) (finalId : String) :
    QualifiedName :=
  ⟨(segs : NamespaceR), finalId⟩

/-- Modelled from the spec: an `ApiName` is "a QualifiedName plus an
optional original external name".  Its defining module (`api.rs`) is not
among the shown sources. -/
structure ApiName where
  name : QualifiedName
  cpp_name : Option String
deriving DecidableEq, Repr

/-- `ApiName::new`: in a given namespace, no original-name override. -/
def ApiName.new (ns : NamespaceR) (id : String) : ApiName :=
  ⟨QualifiedName.new ns id, none⟩

/-- `ApiName::new_with_cpp_name`. -/
def ApiName.new_with_cpp_name (ns : NamespaceR) (id : String)
    (cpp : Option String) : ApiName :=
  ⟨QualifiedName.new ns id, cpp⟩

/-- `ApiName::new_in_root_namespace`. -/
def ApiName.new_in_root_namespace (id : String) : ApiName :=
  ⟨QualifiedName.new NamespaceR.new id, none⟩

/-- Modelled from the spec: `SubclassName` wraps an `ApiName`; a declared
subclass is synthesized in the root namespace from its configured name. -/
structure SubclassName where
  name : ApiName
deriving DecidableEq, Repr

/-- `SubclassName::new`. -/
def SubclassName.new (id : String) : SubclassName :=
  ⟨ApiName.new_in_root_namespace id⟩

/-- Attribute metadata attached by bindgen to an item.  Modelled from the
spec ("attribute-based metadata for visibility, layout, and
reference-kind hints"; `bindgen_semantic_attributes.rs` is not among the
shown sources): an optional original C++ name, a visibility marker, an
optional layout, and the set of plain semantic attribute names present
(queried by `has_attr`). -/
structure BindgenSemanticAttributes where
  original_name : Option String
  cpp_visibility : String
  layout : Option String
  attr_names : List String
deriving DecidableEq, Repr

/-- `BindgenSemanticAttributes::get_original_name`. -/
def BindgenSemanticAttributes.get_original_name
    (a : BindgenSemanticAttributes) : Option String := a.original_name

/-- `BindgenSemanticAttributes::get_cpp_visibility`. -/
def BindgenSemanticAttributes.get_cpp_visibility
    (a : BindgenSemanticAttributes) : String := a.cpp_visibility

/-- `BindgenSemanticAttributes::get_layout`. -/
def BindgenSemanticAttributes.get_layout
    (a : BindgenSemanticAttributes) : Option String := a.layout

/-- `BindgenSemanticAttributes::has_attr`. -/
def BindgenSemanticAttributes.has_attr
    (a : BindgenSemanticAttributes) (n : String) : Bool :=
  a.attr_names.contains n

/-- Attribute set carrying nothing, for concrete test inputs. -/
def BindgenSemanticAttributes.plain : BindgenSemanticAttributes :=
  ⟨none, "pub", none, []⟩

/-- One field of a struct declaration: an optional identifier (tuple
structs have unnamed fields) and its attributes, mirroring what
`parse_bindgen.rs` reads from `syn::Field` (`f.ident`, `f.attrs`). -/
structure FieldR where
  ident : Option String
  attrs : BindgenSemanticAttributes
deriving DecidableEq, Repr

/-- The parts of `syn::ItemStruct` read by the parser: identifier, fields
and attributes. -/
structure ItemStruct where
  ident : String
  fields : List FieldR
  attrs : BindgenSemanticAttributes
deriving DecidableEq, Repr

/-- The parts of `syn::ItemEnum` the parser reads (identifier and
attributes), plus an opaque payload standing for the rest of the
declaration, which is stored unchanged. -/
structure ItemEnum where
  ident : String
  attrs : BindgenSemanticAttributes
  payload : String
deriving DecidableEq, Repr

/-- The parts of `syn::ItemConst` the parser reads, plus an opaque
payload for the rest. -/
structure ItemConst where
  ident : String
  attrs : BindgenSemanticAttributes
  payload : String
deriving DecidableEq, Repr

/-- The parts of `syn::ItemType` (a plain type alias) the parser reads,
plus an opaque payload for the rest. -/
structure ItemType where
  ident : String
  attrs : BindgenSemanticAttributes
  payload : String
deriving DecidableEq, Repr

/-- `syn::UseTree` as matched by the parser: a path segment followed by a
subtree, a terminal name, a rename (`old as new`), or any other shape
(glob, group, ...) which the parser treats uniformly as unexpected. -/
inductive UseTree where
  | Path (ident : String) (tree : UseTree)
  | Name (ident : String)
  | Rename (ident : String) (rename : String)
  | OtherShape
deriving DecidableEq, Repr

/-- The parts of `syn::ItemUse` the parser reads: the use-tree and the
attributes. -/
structure ItemUse where
  tree : UseTree
  attrs : BindgenSemanticAttributes
deriving DecidableEq, Repr

/-- `ConvertError` variants reachable from the shown sources; other
variants (such as those produced by the external identifier validator)
are collapsed into `Other` with a message, modelled from the spec's error
taxonomy. -/
inductive ConvertError where
  | UnexpectedOuterItem
  | UnexpectedItemInMod
  | InfinitelyRecursiveTypedef (qn : QualifiedName)
  | UnexpectedUseStatement (seg : Option String)
  | DidNotGenerateAnything (directive : String)
  | Other (msg : String)
deriving DecidableEq, Repr

/-- Modelled from the spec: "a per-item error may optionally be
attributed to an identifier; attribution determines whether the item
surfaces as a documented IgnoredItem ... or is silently dropped".
`Item` carries the offending item's identifier; `Method` records a
method-level failure which carries no recoverable item identifier
(`convert_error.rs` is not among the shown sources). -/
inductive ErrorContext where
  | Item (id : String)
  | Method (self_ty : String) (method : String)
deriving DecidableEq, Repr

/-- `ErrorContext::get_id`: the recoverable identifier carried by the
context, if any. -/
def ErrorContext.get_id : ErrorContext → Option String
  | .Item id => some id
  | .Method _ _ => none

/-- `ConvertErrorWithContext`: an error plus an optional context. -/
structure ConvertErrorWithContext where
  err : ConvertError
  ctx : Option ErrorContext
deriving DecidableEq, Repr

/-- Opaque descriptor of a function to convert (`FuncToConvert`); the
shown sources move it around without inspecting it. -/
structure FuncToConvert where
  payload : String
deriving DecidableEq, Repr

/-- A Rust path from the configuration (`RustPath`); the parser only
takes its final identifier and stores it whole.  Modelled from the spec's
configuration interface. -/
structure RustPath where
  segs : List String
  finalId : String
deriving DecidableEq, Repr

/-- `RustPath::get_final_ident`. -/
def RustPath.get_final_ident (p : RustPath) : String := p.finalId

/-- A Rust `fn` signature from the configuration; the parser reads its
identifier and stores it whole. -/
structure FnSig where
  ident : String
  payload : String
deriving DecidableEq, Repr

/-- `StructDetails` as built by `parse_item`: visibility, layout, the
struct declaration itself, and the rvalue-reference-field flag. -/
structure StructDetails where
  vis : String
  layout : Option String
  item : ItemStruct
  has_rvalue_reference_fields : Bool
deriving DecidableEq, Repr

/-- `TypedefKind`: a typedef arising from a renaming `use` (determined by
the reconstructed old path and the new identifier, from which the stored
`pub use #old_path as #new_id` item is rebuilt verbatim) or from a plain
type alias item. -/
inductive TypedefKind where
  | Use (old_path_segs : List String) (old_id : String) (new_id : String)
  | Type (item : ItemType)
deriving DecidableEq, Repr

/-- `Api<Phase>`: the tagged union of API variants, parameterized by the
per-kind analysis payload types of the phase (`A::FunAnalysis`,
`A::StructAnalysis`, `A::TypedefAnalysis`).  Variant payloads follow
`error_reporter.rs` and `parse_bindgen.rs`; payload types that the shown
sources never inspect are opaque strings. -/
inductive Api (F S T : Type) where
  | ConcreteType (name : ApiName) (rs_definition : String) (cpp_definition : String)
  | ForwardDeclaration (name : ApiName)
  | StringConstructor (name : ApiName)
  | Const (name : ApiName) (const_item : ItemConst)
  | CType (name : ApiName) (typename : QualifiedName)
  | RustType (name : ApiName) (path : RustPath)
  | RustFn (name : ApiName) (sig : FnSig) (path : RustPath)
  | RustSubclassFn (name : ApiName) (subclass : SubclassName) (details : String)
  | Subclass (name : SubclassName) (superclass : QualifiedName)
  | IgnoredItem (name : ApiName) (err : ConvertError) (ctx : ErrorContext)
  | SubclassTraitItem (name : ApiName) (details : String)
  | Enum (name : ApiName) (item : ItemEnum)
  | Typedef (name : ApiName) (item : TypedefKind) (old_tyname : Option QualifiedName) (analysis : T)
  | Function (name : ApiName) (fn : FuncToConvert) (analysis : F) (name_for_gc : Option QualifiedName)
  | Struct (name : ApiName) (details : StructDetails) (analysis : S)
deriving DecidableEq, Repr

/-- `Api::name()`: the QualifiedName-derived identity of an API.
Modelled from the spec ("every API has a unique QualifiedName-derived
identity"; `api.rs` is not among the shown sources): the qualified name
of the variant's `ApiName` (for `Subclass`, of the wrapped name). -/
def Api.name {F S T : Type} : Api F S T → QualifiedName
  | .ConcreteType n _ _ => n.name
  | .ForwardDeclaration n => n.name
  | .StringConstructor n => n.name
  | .Const n _ => n.name
  | .CType n _ => n.name
  | .RustType n _ => n.name
  | .RustFn n _ _ => n.name
  | .RustSubclassFn n _ _ => n.name
  | .Subclass n _ => n.name.name
  | .IgnoredItem n _ _ => n.name
  | .SubclassTraitItem n _ => n.name
  | .Enum n _ => n.name
  | .Typedef n _ _ _ => n.name
  | .Function n _ _ _ => n.name
  | .Struct n _ _ => n.name

/-- `ApiVec`: an insertion-ordered collection of APIs.  Modelled from the
spec (`apivec.rs` is not among the shown sources): a sequence with a
plain append operation and a duplicate-eliminating insertion keyed on the
QualifiedName-derived identity. -/
abbrev ApiVec (F S T : Type) := List (Api F S T)

/-- `ApiVec::new`. -/
def ApiVec.new {F S T : Type} : ApiVec F S T := ([] : List (Api F S T))

/-- `ApiVec::push` / `extend` / `append`: plain insertion-order append,
no duplicate elimination (modelled from the spec: "a plain append
operation used when duplicates cannot occur by construction"). -/
def ApiVec.push {F S T : Type} (v : ApiVec F S T) (a : Api F S T) :
    ApiVec F S T :=
  (v : List (Api F S T)) ++ [a]

/-- `ApiVec::extend` (and `append`, which moves another vec's items in
order). -/
def ApiVec.extend {F S T : Type} (v : ApiVec F S T) (more : List (Api F S T)) :
    ApiVec F S T :=
  (v : List (Api F S T)) ++ more

/-- `ApiVec::push_eliminating_duplicates`: silently drops the incoming
item when one with the same QualifiedName-derived identity already
exists, keeping the first-seen entry (modelled from the spec's insertion
contract). -/
def ApiVec.push_eliminating_duplicates {F S T : Type} [DecidableEq F]
    [DecidableEq S] [DecidableEq T]
    (v : ApiVec F S T) (a : Api F S T) : ApiVec F S T :=
  if (v : List (Api F S T)).any (fun b => b.name = a.name) then v
  else (v : List (Api F S T)) ++ [a]

/-- `ignored_item` (`error_reporter.rs`): build an `IgnoredItem` API from
a namespace, a context and an error, provided the context carries a
recoverable identifier. -/
def ignored_item {F S T : Type} (ns : NamespaceR) (ctx : ErrorContext)
    (err : ConvertError) : Option (Api F S T) :=
  ctx.get_id.map (fun id => Api.IgnoredItem (ApiName.new ns id) err ctx)

/-- `api_or_error` (`error_reporter.rs`): on success yield the produced
APIs; on a context-free failure yield nothing (diagnostic only); on a
failure with context yield the `IgnoredItem` built by `ignored_item`,
when there is one. -/
def api_or_error {F S T : Type} (name : QualifiedName)
    (r : Except ConvertErrorWithContext (List (Api F S T))) :
    List (Api F S T) :=
  match r with
  | .ok l => l
  | .error ⟨_, none⟩ => []
  | .error ⟨err, some ctx⟩ =>
      (ignored_item name.get_namespace ctx err).toList

/-- The per-API dispatch inside `convert_apis`: phase-insensitive
variants are rebuilt unchanged as a single-element sequence; `Enum`,
`Typedef`, `Function` and `Struct` go through their respective
caller-supplied conversion callbacks. -/
def convert_one {FA SA TA FB SB TB : Type}
    (func_conversion : ApiName → FuncToConvert → FA → Option QualifiedName →
      Except ConvertErrorWithContext (List (Api FB SB TB)))
    (struct_conversion : ApiName → StructDetails → SA →
      Except ConvertErrorWithContext (List (Api FB SB TB)))
    (enum_conversion : ApiName → ItemEnum →
      Except ConvertErrorWithContext (List (Api FB SB TB)))
    (typedef_conversion : ApiName → TypedefKind → Option QualifiedName → TA →
      Except ConvertErrorWithContext (List (Api FB SB TB))) :
    Api FA SA TA → Except ConvertErrorWithContext (List (Api FB SB TB))
  | .ConcreteType name rs cpp => .ok [.ConcreteType name rs cpp]
  | .ForwardDeclaration name => .ok [.ForwardDeclaration name]
  | .StringConstructor name => .ok [.StringConstructor name]
  | .Const name const_item => .ok [.Const name const_item]
  | .CType name typename => .ok [.CType name typename]
  | .RustType name path => .ok [.RustType name path]
  | .RustFn name sig path => .ok [.RustFn name sig path]
  | .RustSubclassFn name subclass details => .ok [.RustSubclassFn name subclass details]
  | .Subclass name superclass => .ok [.Subclass name superclass]
  | .IgnoredItem name err ctx => .ok [.IgnoredItem name err ctx]
  | .SubclassTraitItem name details => .ok [.SubclassTraitItem name details]
  | .Enum name item => enum_conversion name item
  | .Typedef name item old_tyname analysis => typedef_conversion name item old_tyname analysis
  | .Function name fn analysis name_for_gc => func_conversion name fn analysis name_for_gc
  | .Struct name details analysis => struct_conversion name details analysis

/-- `convert_apis` (`error_reporter.rs`): extend `out_apis` with the
flat-mapped per-item results, each filtered through `api_or_error` under
the item's pre-recorded qualified name. -/
def convert_apis {FA SA TA FB SB TB : Type}
    (func_conversion : ApiName → FuncToConvert → FA → Option QualifiedName →
      Except ConvertErrorWithContext (List (Api FB SB TB)))
    (struct_conversion : ApiName → StructDetails → SA →
      Except ConvertErrorWithContext (List (Api FB SB TB)))
    (enum_conversion : ApiName → ItemEnum →
      Except ConvertErrorWithContext (List (Api FB SB TB)))
    (typedef_conversion : ApiName → TypedefKind → Option QualifiedName → TA →
      Except ConvertErrorWithContext (List (Api FB SB TB)))
    (in_apis : ApiVec FA SA TA) (out_apis : ApiVec FB SB TB) :
    ApiVec FB SB TB :=
  out_apis.extend ((in_apis : List (Api FA SA TA)).flatMap (fun api =>
    api_or_error api.name
      (convert_one func_conversion struct_conversion enum_conversion
        typedef_conversion api)))

/-- `convert_item_apis` (`error_reporter.rs`): a single callback per API;
a callback failure is given the item's final identifier as context before
going through `api_or_error`. -/
def convert_item_apis {FA SA TA FB SB TB : Type}
    (fn : Api FA SA TA → Except ConvertError (List (Api FB SB TB)))
    (in_apis : ApiVec FA SA TA) (out_apis : ApiVec FB SB TB) :
    ApiVec FB SB TB :=
  out_apis.extend ((in_apis : List (Api FA SA TA)).flatMap (fun api =>
    let tn := api.name
    api_or_error tn
      ((fn api).mapError (fun e =>
        ⟨e, some (ErrorContext.Item tn.get_final_ident)⟩))))

/-! ### The AST parser (`parse_bindgen.rs`) -/

/-- `NullPhase`: all per-kind analysis payloads are `()`; the parser
produces `Api<NullPhase>` values. -/
abbrev UnanalyzedApi := Api Unit Unit Unit

/-- A subclass declaration from the configuration (subclass name plus
superclass C++ name).  Modelled from the spec's configuration
interface. -/
structure SubclassDecl where
  subclass : String
  superclass : String
deriving DecidableEq, Repr

/-- An extern Rust function declaration from the configuration
(signature plus path).  Modelled from the spec's configuration
interface. -/
structure RustFunDecl where
  sig : FnSig
  path : RustPath
deriving DecidableEq, Repr

/-- `IncludeCppConfig`, modelled from the spec's configuration interface
(the `autocxx_parser` crate is not among the shown sources): block list,
must-generate list, subclass declarations, extern Rust functions,
pass-through Rust types and the utility-suppression flag. -/
structure IncludeCppConfig where
  blocklist : List String
  must_generate : List String
  subclasses : List SubclassDecl
  extern_rust_funs : List RustFunDecl
  rust_types : List RustPath
  exclude_utilities_flag : Bool
deriving DecidableEq, Repr

/-- `IncludeCppConfig::is_on_blocklist`. -/
def IncludeCppConfig.is_on_blocklist (cfg : IncludeCppConfig)
    (cpp_name : String) : Bool :=
  cfg.blocklist.contains cpp_name

/-- `IncludeCppConfig::is_rust_type`: whether an identifier names a
declared pass-through Rust type (per-identifier lookup, modelled from the
spec). -/
def IncludeCppConfig.is_rust_type (cfg : IncludeCppConfig) (id : String) :
    Bool :=
  cfg.rust_types.any (fun p => p.get_final_ident = id)

/-- `IncludeCppConfig::must_generate_list`. -/
def IncludeCppConfig.must_generate_list (cfg : IncludeCppConfig) :
    List String :=
  cfg.must_generate

/-- `IncludeCppConfig::exclude_utilities`. -/
def IncludeCppConfig.exclude_utilities (cfg : IncludeCppConfig) : Bool :=
  cfg.exclude_utilities_flag

/-- `syn::Item` as matched by `parse_item`: foreign-mod blocks (their
items kept opaque), structs, enums, impl blocks (opaque), nested modules,
use declarations, constants, plain type aliases, and any other item
kind. -/
inductive Item where
  | ForeignMod (items : List String)
  | Struct (s : ItemStruct)
  | Enum (e : ItemEnum)
  | Impl (payload : String)
  | Mod (ident : String) (content : Option (List Item))
  | Use (u : ItemUse)
  | Const (c : ItemConst)
  | Type (t : ItemType)
  | OtherItem

/-- The external collaborators of the parser, supplied as functions:
the identifier validator (`types.rs`), the utility generator
(`utilities.rs`) and the per-namespace foreign-mod function synthesis
(`parse_foreign_mod.rs`).  All three are modelled from the spec, which
treats them as opaque: "Validate the identifier is usable in the bridge's
target naming rules", "seed the output list with a fixed set of utility
APIs", "a per-namespace helper that later synthesizes Function APIs". -/
structure ExternalFns where
  validate_ident_ok_for_cxx : String → Except ConvertError Unit
  generate_utilities : IncludeCppConfig → List UnanalyzedApi
  foreign_mod_synth : NamespaceR → List String → List String → List UnanalyzedApi

/-- `ParseForeignMod` as seen from `parse_bindgen.rs`: it accumulates the
foreign-mod items and impl blocks of one namespace (modelled from the
spec; `parse_foreign_mod.rs` is not among the shown sources). -/
structure ParseForeignMod where
  ns : NamespaceR
  foreign_items : List String
  impl_blocks : List String
deriving DecidableEq, Repr

/-- `ParseForeignMod::new`. -/
def ParseForeignMod.new (ns : NamespaceR) : ParseForeignMod := ⟨ns, [], []⟩

/-- `ParseForeignMod::convert_foreign_mod_items`. -/
def ParseForeignMod.convert_foreign_mod_items (mc : ParseForeignMod)
    (items : List String) : ParseForeignMod :=
  { mc with foreign_items := mc.foreign_items ++ items }

/-- `ParseForeignMod::convert_impl_items`. -/
def ParseForeignMod.convert_impl_items (mc : ParseForeignMod)
    (payload : String) : ParseForeignMod :=
  { mc with impl_blocks := mc.impl_blocks ++ [payload] }

/-- `ParseForeignMod::finished`: append the Function APIs synthesized
from the accumulated items to the output list (modelled from the spec:
"invoked once per namespace after all its items are seen, finalizing into
the output list"). -/
def ParseForeignMod.finished (ext : ExternalFns) (mc : ParseForeignMod)
    (apis : ApiVec Unit Unit Unit) : ApiVec Unit Unit Unit :=
  apis.extend (ext.foreign_mod_synth mc.ns mc.foreign_items mc.impl_blocks)

/-- `api_name` (`parse_bindgen.rs`). -/
def api_name (ns : NamespaceR) (id : String)
    (attrs : BindgenSemanticAttributes) : ApiName :=
  ApiName.new_with_cpp_name ns id attrs.get_original_name

/-- `api_name_qualified` (`parse_bindgen.rs`): validate the identifier
first; a validation failure becomes an error with the identifier as
item context. -/
def api_name_qualified (ext : ExternalFns) (ns : NamespaceR) (id : String)
    (attrs : BindgenSemanticAttributes) :
    Except ConvertErrorWithContext ApiName :=
  match ext.validate_ident_ok_for_cxx id with
  | .error e => .error ⟨e, some (ErrorContext.Item id)⟩
  | .ok _ => .ok (api_name ns id attrs)

/-- The mutable state of `ParseBindgen` seen by `parse_item`: the
accumulated APIs and the current namespace's foreign-mod converter. -/
structure PState where
  apis : ApiVec Unit Unit Unit
  mc : ParseForeignMod
deriving DecidableEq, Repr

/-- `ParseBindgen::spot_forward_declaration`: some named field is the
`_unused` sentinel. -/
def spot_forward_declaration (fields : List FieldR) : Bool :=
  (fields.filterMap (fun f => f.ident)).any (fun id => id = "_unused")

/-- The `Item::Use` loop of `parse_item`, as a recursion over the use
tree carrying the accumulated path segments.  The outer `Except String`
layer records panics (the two `assert!`s on the `self::super` prefix
convention and the out-of-bounds `remove(0)`); the inner layer is the
per-item `ConvertErrorWithContext` result. -/
def parse_use_tree (ns : NamespaceR) (attrs : BindgenSemanticAttributes)
    (apis : ApiVec Unit Unit Unit) (segs : List String) :
    UseTree → Except String (Except ConvertErrorWithContext (ApiVec Unit Unit Unit))
  | .Path ident tree => parse_use_tree ns attrs apis (segs ++ [ident]) tree
  | .Name ident =>
      if ident = "root" then .ok (.ok apis)
      else .ok (.error ⟨.UnexpectedUseStatement segs.getLast?, none⟩)
  | .OtherShape => .ok (.error ⟨.UnexpectedUseStatement segs.getLast?, none⟩)
  | .Rename old_id new_id =>
      let new_tyname := QualifiedName.new ns new_id
      match segs with
      | [] => .error "removal index (is 0) should be < len (is 0)"
      | s0 :: segs1 =>
        if s0 ≠ "self" then .error "Path didn't start with self"
        else match segs1 with
          | [] => .error "removal index (is 0) should be < len (is 0)"
          | s1 :: rest =>
            if s1 ≠ "super" then .error "Path didn't start with self::super"
            else
              let old_tyname := QualifiedName.from_type_path rest old_id
              if new_tyname = old_tyname then
                .ok (.error ⟨.InfinitelyRecursiveTypedef new_tyname,
                  some (ErrorContext.Item new_id)⟩)
              else
                .ok (.ok (apis.push_eliminating_duplicates
                  (.Typedef (api_name ns new_id attrs)
                    (.Use rest old_id new_id) (some old_tyname) ())))

mutual

/-- `ParseBindgen::parse_item`: dispatch one item, updating the API list
and the namespace's foreign-mod converter.  The outer `Except String`
layer records panics; the inner layer is the item's
`Result<(), ConvertErrorWithContext>` (no state is mutated before any
error return, matching the source's control flow). -/
def parse_item (ext : ExternalFns) (cfg : IncludeCppConfig) (item : Item)
    (ns : NamespaceR) (st : PState) :
    Except String (Except ConvertErrorWithContext PState) :=
  match item with
  | .ForeignMod items =>
      .ok (.ok { st with mc := st.mc.convert_foreign_mod_items items })
  | .Struct s =>
      if s.ident.endsWith "__bindgen_vtable" then .ok (.ok st)
      else
        let is_forward_declaration := spot_forward_declaration s.fields
        let annotations := s.attrs
        match api_name_qualified ext ns s.ident annotations with
        | .error e => .ok (.error e)
        | .ok name =>
          let api : Option UnanalyzedApi :=
            if ns.is_empty && cfg.is_rust_type s.ident then none
            else if is_forward_declaration then
              some (.ForwardDeclaration name)
            else
              let has_rvalue_reference_fields := s.fields.any (fun f =>
                f.attrs.has_attr "rvalue_reference")
              some (.Struct name
                ⟨annotations.get_cpp_visibility, annotations.get_layout, s,
                  has_rvalue_reference_fields⟩ ())
          match api with
          | some api =>
              if ¬ cfg.is_on_blocklist api.name.to_cpp_name then
                .ok (.ok { st with
                  apis := st.apis.push_eliminating_duplicates api })
              else .ok (.ok st)
          | none => .ok (.ok st)
  | .Enum e =>
      let annotations := e.attrs
      match api_name_qualified ext ns e.ident annotations with
      | .error err => .ok (.error err)
      | .ok name =>
        let api : UnanalyzedApi := .Enum name e
        if ¬ cfg.is_on_blocklist api.name.to_cpp_name then
          .ok (.ok { st with
            apis := st.apis.push_eliminating_duplicates api })
        else .ok (.ok st)
  | .Impl payload =>
      .ok (.ok { st with mc := st.mc.convert_impl_items payload })
  | .Mod ident content =>
      match content with
      | some items =>
          match parse_mod_loop ext cfg items (ns.push ident)
              ⟨st.apis, ParseForeignMod.new (ns.push ident)⟩ [] with
          | .error p => .error p
          | .ok (st', more) =>
              let apis' := ParseForeignMod.finished ext st'.mc (st'.apis.extend more)
              .ok (.ok { st with apis := apis' })
      | none => .ok (.ok st)
  | .Use u =>
      match parse_use_tree ns u.attrs st.apis [] u.tree with
      | .error p => .error p
      | .ok (.error e) => .ok (.error e)
      | .ok (.ok apis') => .ok (.ok { st with apis := apis' })
  | .Const c =>
      let annotations := c.attrs
      let api : UnanalyzedApi := .Const (api_name ns c.ident annotations) c
      .ok (.ok { st with apis := st.apis.push_eliminating_duplicates api })
  | .Type t =>
      let annotations := t.attrs
      let api : UnanalyzedApi :=
        .Typedef (api_name ns t.ident annotations) (.Type t) none ()
      .ok (.ok { st with apis := st.apis.push_eliminating_duplicates api })
  | .OtherItem => .ok (.error ⟨.UnexpectedItemInMod, none⟩)

/-- The item loop of `ParseBindgen::parse_mod_items`: each item runs
under `report_any_error` against the namespace's `more_apis` list — a
per-item error with an identifier-carrying context contributes one
`IgnoredItem` there, a context-free error contributes nothing. -/
def parse_mod_loop (ext : ExternalFns) (cfg : IncludeCppConfig)
    (items : List Item) (ns : NamespaceR) (st : PState)
    (more : List UnanalyzedApi) :
    Except String (PState × List UnanalyzedApi) :=
  match items with
  | [] => .ok (st, more)
  | item :: rest =>
      match parse_item ext cfg item ns st with
      | .error p => .error p
      | .ok (.ok st') => parse_mod_loop ext cfg rest ns st' more
      | .ok (.error ⟨_, none⟩) => parse_mod_loop ext cfg rest ns st more
      | .ok (.error ⟨e, some ctx⟩) =>
          parse_mod_loop ext cfg rest ns st
            (more ++ (ignored_item ns ctx e).toList)

end

/-- `ParseBindgen::parse_mod_items`: walk one module's items in the given
namespace with a fresh foreign-mod converter, append the collected
`IgnoredItem`s, then let the converter finalize its Function APIs. -/
def parse_mod_items (ext : ExternalFns) (cfg : IncludeCppConfig)
    (items : List Item) (ns : NamespaceR) (apis : ApiVec Unit Unit Unit) :
    Except String (ApiVec Unit Unit Unit) :=
  match parse_mod_loop ext cfg items ns ⟨apis, ParseForeignMod.new ns⟩ [] with
  | .error p => .error p
  | .ok (st, more) =>
      .ok (ParseForeignMod.finished ext st.mc (st.apis.extend more))

/-- `ParseBindgen::find_items_in_root`: look for the bindgen `root`
wrapper module among the top-level items.  A module not named `root`
trips the `assert!` (outer `Except String` layer = panic); a non-module
item is the fatal `UnexpectedOuterItem`; a contentless `root` module is
skipped; no module at all yields the empty item list. -/
def find_items_in_root :
    List Item → Except String (Except ConvertError (List Item))
  | [] => .ok (.ok [])
  | item :: rest =>
      match item with
      | .Mod ident content =>
          if ident = "root" then
            match content with
            | some items => .ok (.ok items)
            | none => find_items_in_root rest
          else .error "assertion failed: root_mod.ident == root"
      | _ => .ok (.error .UnexpectedOuterItem)

/-- `ParseBindgen::add_apis_from_config`: append one `Subclass` API per
declared subclass, one `RustFn` per extern Rust function and one
`RustType` per pass-through type, via plain extension. -/
def add_apis_from_config (cfg : IncludeCppConfig)
    (apis : ApiVec Unit Unit Unit) : ApiVec Unit Unit Unit :=
  ((apis.extend (cfg.subclasses.map (fun sc =>
      (.Subclass (SubclassName.new sc.subclass)
        (QualifiedName.new_from_cpp_name sc.superclass) : UnanalyzedApi)))).extend
    (cfg.extern_rust_funs.map (fun f =>
      (.RustFn (ApiName.new_in_root_namespace f.sig.ident) f.sig f.path :
        UnanalyzedApi)))).extend
    (cfg.rust_types.map (fun p =>
      (.RustType (ApiName.new_in_root_namespace p.get_final_ident) p :
        UnanalyzedApi)))

/-- `ParseBindgen::confirm_all_generate_directives_obeyed`: every
must-generate directive must appear among the external (cpp) names of
the produced APIs, else the first missing one fails the parse. -/
def confirm_all_generate_directives_obeyed (cfg : IncludeCppConfig)
    (apis : ApiVec Unit Unit Unit) : Except ConvertError Unit :=
  match cfg.must_generate_list.find? (fun g =>
    ! ((apis : List UnanalyzedApi).map
        (fun a => a.name.to_cpp_name)).contains g) with
  | some g => .error (.DidNotGenerateAnything g)
  | none => .ok ()

/-- `ParseBindgen::parse_items` (with `ParseBindgen::new`): unwrap the
root module, seed utilities unless suppressed, inject config APIs, walk
the tree from the root namespace, then check the must-generate
directives.  The outer `Except String` layer records panics; the inner
layer is the `Result<ApiVec<NullPhase>, ConvertError>`. -/
def parse_items (ext : ExternalFns) (cfg : IncludeCppConfig)
    (items : List Item) :
    Except String (Except ConvertError (ApiVec Unit Unit Unit)) :=
  match find_items_in_root items with
  | .error p => .error p
  | .ok (.error e) => .ok (.error e)
  | .ok (.ok inner) =>
    let apis0 : ApiVec Unit Unit Unit :=
      if ¬ cfg.exclude_utilities then ext.generate_utilities cfg
      else ApiVec.new
    let apis1 := add_apis_from_config cfg apis0
    match parse_mod_items ext cfg inner NamespaceR.new apis1 with
    | .error p => .error p
    | .ok apis2 =>
      match confirm_all_generate_directives_obeyed cfg apis2 with
      | .error e => .ok (.error e)
      | .ok _ => .ok (.ok apis2)

/-! ### Theorems -/

/-- The phase-insensitive API variants, as enumerated by the pass-through
arm of `convert_apis`: the same constructor with the same payloads at the
target phase, or `none` for the four callback-dispatched variants. -/
def Api.phase_insensitive_transfer {FA SA TA FB SB TB : Type} :
    Api FA SA TA → Option (Api FB SB TB)
  | .ConcreteType n rs cpp => some (.ConcreteType n rs cpp)
  | .ForwardDeclaration n => some (.ForwardDeclaration n)
  | .StringConstructor n => some (.StringConstructor n)
  | .Const n c => some (.Const n c)
  | .CType n t => some (.CType n t)
  | .RustType n p => some (.RustType n p)
  | .RustFn n s p => some (.RustFn n s p)
  | .RustSubclassFn n sub d => some (.RustSubclassFn n sub d)
  | .Subclass n sup => some (.Subclass n sup)
  | .IgnoredItem n e c => some (.IgnoredItem n e c)
  | .SubclassTraitItem n d => some (.SubclassTraitItem n d)
  | .Enum _ _ => none
  | .Typedef _ _ _ _ => none
  | .Function _ _ _ _ => none
  | .Struct _ _ _ => none

/-- Trivial instantiation of the external collaborators, for concrete
runs: every identifier validates, no utilities, no synthesized
functions. -/
def trivExt : ExternalFns :=
  ⟨fun _ => .ok (), fun _ => [], fun _ _ _ => []⟩

/-- An empty configuration with utility generation suppressed. -/
def emptyCfg : IncludeCppConfig := ⟨[], [], [], [], [], true⟩

/-- A concrete `Const` API used as input in concrete runs. -/
def constApiW : UnanalyzedApi :=
  .Const (ApiName.new NamespaceR.new "kVal")
    ⟨"kVal", BindgenSemanticAttributes.plain, "1"⟩

/-- A concrete `ForwardDeclaration` API used as input in concrete runs. -/
def fdApiW (id : String) : UnanalyzedApi :=
  .ForwardDeclaration (ApiName.new NamespaceR.new id)

/-- A concrete `Function` API used as input in concrete runs. -/
def funcApiW (id : String) : UnanalyzedApi :=
  .Function (ApiName.new NamespaceR.new id) ⟨id⟩ () none

/-- A struct conversion callback that always succeeds with no output. -/
def okNilSc : ApiName → StructDetails → Unit →
    Except ConvertErrorWithContext (List UnanalyzedApi) :=
  fun _ _ _ => .ok []

/-- An enum conversion callback that always succeeds with no output. -/
def okNilEc : ApiName → ItemEnum →
    Except ConvertErrorWithContext (List UnanalyzedApi) :=
  fun _ _ => .ok []

/-- A typedef conversion callback that always succeeds with no output. -/
def okNilTc : ApiName → TypedefKind → Option QualifiedName → Unit →
    Except ConvertErrorWithContext (List UnanalyzedApi) :=
  fun _ _ _ _ => .ok []

/-- A function conversion callback that fails, without any context, on
the function named `bad_fn`, and succeeds (echoing the input) on every
other function. -/
def c1Fc : ApiName → FuncToConvert → Unit → Option QualifiedName →
    Except ConvertErrorWithContext (List UnanalyzedApi) :=
  fun n f a gc =>
    if n.name.get_final_ident = "bad_fn" then .error ⟨.Other "fail", none⟩
    else .ok [.Function n f a gc]

/-- Helper: when every item of a list converts successfully to a single
API, the flat-mapped `api_or_error` pipeline of `convert_apis` is a plain
map. -/
theorem flatMap_convert_of_ok {FA SA TA FB SB TB : Type}
    (fc : ApiName → FuncToConvert → FA → Option QualifiedName →
      Except ConvertErrorWithContext (List (Api FB SB TB)))
    (sc : ApiName → StructDetails → SA →
      Except ConvertErrorWithContext (List (Api FB SB TB)))
    (ec : ApiName → ItemEnum →
      Except ConvertErrorWithContext (List (Api FB SB TB)))
    (tc : ApiName → TypedefKind → Option QualifiedName → TA →
      Except ConvertErrorWithContext (List (Api FB SB TB)))
    (conv : Api FA SA TA → Api FB SB TB) (l : List (Api FA SA TA))
    (hok : ∀ a ∈ l, convert_one fc sc ec tc a = .ok [conv a]) :
    l.flatMap (fun api => api_or_error api.name
      (convert_one fc sc ec tc api)) = l.map conv := by
  induction l with
  | nil => simp
  | cons x t ih =>
      have hx := hok x (by simp)
      have ht : ∀ a ∈ t, convert_one fc sc ec tc a = .ok [conv a] :=
        fun a ha => hok a (by simp [ha])
      rw [List.flatMap_cons, ih ht, List.map_cons, hx]
      simp [api_or_error]

/-- **C1 (counterexample).**  The claim asserts that a per-kind callback
failure for exactly one Function API always leaves exactly one
`IgnoredItem` at that position.  Concretely: two Function APIs, the
callback succeeds on `good_fn` and fails on `bad_fn` with a context-free
error; the output is just the converted `good_fn` — no `IgnoredItem`
documents the failed item, refuting the claim as stated. -/
theorem convert_apis_contextfree_failure_drops_item :
    convert_apis c1Fc okNilSc okNilEc okNilTc
      [funcApiW "good_fn", funcApiW "bad_fn"] ApiVec.new =
      [funcApiW "good_fn"] := by
  decide

/-- **C1 (amended).**  If the kind-dispatched conversion fails for
exactly one item `f` — with an error whose context carries an identifier
`id` — and every other item converts successfully to a single API, then
the output is the other items' conversions in their original relative
order with exactly one `IgnoredItem` (named by `f`'s namespace and `id`)
at `f`'s original position.  (The claim as stated omits the context
requirement; a context-free failure contributes nothing for the failed
item, per the counterexample.) -/
theorem convert_apis_single_failure_isolated {FA SA TA FB SB TB : Type}
    (fc : ApiName → FuncToConvert → FA → Option QualifiedName →
      Except ConvertErrorWithContext (List (Api FB SB TB)))
    (sc : ApiName → StructDetails → SA →
      Except ConvertErrorWithContext (List (Api FB SB TB)))
    (ec : ApiName → ItemEnum →
      Except ConvertErrorWithContext (List (Api FB SB TB)))
    (tc : ApiName → TypedefKind → Option QualifiedName → TA →
      Except ConvertErrorWithContext (List (Api FB SB TB)))
    (xs ys : List (Api FA SA TA)) (f : Api FA SA TA)
    (conv : Api FA SA TA → Api FB SB TB) (err : ConvertError) (id : String)
    (hf : convert_one fc sc ec tc f = .error ⟨err, some (ErrorContext.Item id)⟩)
    (hok : ∀ a ∈ xs ++ ys, convert_one fc sc ec tc a = .ok [conv a]) :
    convert_apis fc sc ec tc (xs ++ f :: ys) ApiVec.new =
      xs.map conv ++
        Api.IgnoredItem (ApiName.new f.name.get_namespace id) err
          (ErrorContext.Item id) :: ys.map conv := by
  have hxs : ∀ a ∈ xs, convert_one fc sc ec tc a = .ok [conv a] :=
    fun a ha => hok a (by simp [ha])
  have hys : ∀ a ∈ ys, convert_one fc sc ec tc a = .ok [conv a] :=
    fun a ha => hok a (by simp [ha])
  simp only [convert_apis, ApiVec.extend, ApiVec.new, List.flatMap_append,
    List.flatMap_cons, List.nil_append]
  rw [flatMap_convert_of_ok fc sc ec tc conv xs hxs,
    flatMap_convert_of_ok fc sc ec tc conv ys hys, hf]
  simp [api_or_error, ignored_item, ErrorContext.get_id]

/-- Witness for the amended C1 theorem: two forward declarations around a
failing function; the output keeps both, in order, with the `IgnoredItem`
in the middle. -/
theorem convert_apis_single_failure_isolated_witness :
    convert_apis
      (fun n _ _ _ => (.error ⟨.Other "fail", some (ErrorContext.Item n.name.get_final_ident)⟩ :
        Except ConvertErrorWithContext (List UnanalyzedApi)))
      okNilSc okNilEc okNilTc
      ([fdApiW "A"] ++ funcApiW "bad_fn" :: [fdApiW "B"]) ApiVec.new =
      [fdApiW "A"].map id ++
        Api.IgnoredItem
          (ApiName.new (funcApiW "bad_fn").name.get_namespace "bad_fn")
          (.Other "fail") (ErrorContext.Item "bad_fn") :: [fdApiW "B"].map id :=
  convert_apis_single_failure_isolated _ okNilSc okNilEc okNilTc
    [fdApiW "A"] [fdApiW "B"] (funcApiW "bad_fn") id (.Other "fail") "bad_fn"
    (by decide) (by decide)

/-- **C7.**  For every phase-insensitive API variant (all constructors
other than `Enum`, `Typedef`, `Function`, `Struct`), the kind-dispatched
conversion is the identity: whatever the four callbacks are, the output
extends the accumulator with exactly the input API (same constructor,
same payloads), so no callback is consulted and the conversion cannot
fail. -/
theorem convert_apis_insensitive_identity {FA SA TA FB SB TB : Type}
    (fc : ApiName → FuncToConvert → FA → Option QualifiedName →
      Except ConvertErrorWithContext (List (Api FB SB TB)))
    (sc : ApiName → StructDetails → SA →
      Except ConvertErrorWithContext (List (Api FB SB TB)))
    (ec : ApiName → ItemEnum →
      Except ConvertErrorWithContext (List (Api FB SB TB)))
    (tc : ApiName → TypedefKind → Option QualifiedName → TA →
      Except ConvertErrorWithContext (List (Api FB SB TB)))
    (out : ApiVec FB SB TB) (a : Api FA SA TA) (b : Api FB SB TB)
    (h : a.phase_insensitive_transfer = some b) :
    convert_apis fc sc ec tc [a] out = out.extend [b] := by
  cases a <;> simp_all [Api.phase_insensitive_transfer, convert_apis,
    convert_one, api_or_error, ApiVec.extend]

/-- Witness for C7: a `Const` API passes through `convert_apis`
unchanged even when every callback is set to fail. -/
theorem convert_apis_insensitive_identity_witness :
    Api.phase_insensitive_transfer constApiW = some constApiW ∧
    convert_apis
      (fun _ _ _ _ => (.error ⟨.Other "fail", none⟩ :
        Except ConvertErrorWithContext (List UnanalyzedApi)))
      (fun _ _ _ => .error ⟨.Other "fail", none⟩)
      (fun _ _ => .error ⟨.Other "fail", none⟩)
      (fun _ _ _ _ => .error ⟨.Other "fail", none⟩)
      [constApiW] ApiVec.new = ApiVec.new.extend [constApiW] :=
  ⟨rfl, convert_apis_insensitive_identity _ _ _ _ ApiVec.new constApiW constApiW rfl⟩

/-- **C10.**  In the uniform (single-callback) conversion, a callback
failure on any item is attributed to the item's final identifier as
context, so the output contains exactly one `IgnoredItem` for that API —
named by the item's namespace and final identifier — in place, and the
failure is never silently dropped. -/
theorem convert_item_apis_failure_ignored {FA SA TA FB SB TB : Type}
    (fn : Api FA SA TA → Except ConvertError (List (Api FB SB TB)))
    (xs ys : List (Api FA SA TA)) (a : Api FA SA TA) (e : ConvertError)
    (out : ApiVec FB SB TB)
    (hf : fn a = .error e) :
    convert_item_apis fn (xs ++ a :: ys) out =
      convert_item_apis fn xs out ++
        Api.IgnoredItem
          (ApiName.new a.name.get_namespace a.name.get_final_ident) e
          (ErrorContext.Item a.name.get_final_ident) ::
        convert_item_apis fn ys ApiVec.new := by
  simp [convert_item_apis, ApiVec.extend, ApiVec.new, hf, api_or_error,
    ignored_item, ErrorContext.get_id, Except.mapError]

/-- A uniform conversion callback that always fails. -/
def boomCb : Api Unit Unit Unit → Except ConvertError (List UnanalyzedApi) :=
  fun _ => .error (.Other "boom")

/-- Witness for C10: a failing uniform callback on a single `Const` API
yields exactly the corresponding `IgnoredItem`. -/
theorem convert_item_apis_failure_ignored_witness :
    convert_item_apis boomCb ([] ++ constApiW :: []) ApiVec.new =
      convert_item_apis boomCb [] ApiVec.new ++
        Api.IgnoredItem
          (ApiName.new constApiW.name.get_namespace
            constApiW.name.get_final_ident) (.Other "boom")
          (ErrorContext.Item constApiW.name.get_final_ident) ::
        convert_item_apis boomCb [] ApiVec.new :=
  convert_item_apis_failure_ignored boomCb [] [] constApiW (.Other "boom")
    ApiVec.new rfl

/-- A renaming use declaration `use self::super::X as X` — the
infinite-regress alias shape. -/
def selfUseX : Item :=
  .Use ⟨UseTree.Path "self" (UseTree.Path "super" (UseTree.Rename "X" "X")),
    BindgenSemanticAttributes.plain⟩

/-- The `IgnoredItem` produced for `selfUseX` in the root namespace. -/
def igX : UnanalyzedApi :=
  .IgnoredItem (ApiName.new NamespaceR.new "X")
    (.InfinitelyRecursiveTypedef (QualifiedName.new NamespaceR.new "X"))
    (ErrorContext.Item "X")

/-- **C3 (counterexample).**  A successfully produced API list can hold
two APIs with the same QualifiedName-derived identity: two copies of the
same infinitely-recursive alias each degrade to an `IgnoredItem` named
`X`, and `IgnoredItem`s are appended to the output without duplicate
elimination (`report_any_error` uses plain `push`), so the parse succeeds
with a duplicated identity. -/
theorem parse_items_duplicate_identity_output :
    parse_items trivExt emptyCfg [.Mod "root" (some [selfUseX, selfUseX])] =
      .ok (.ok [igX, igX]) ∧
    ¬ ([igX, igX].map Api.name).Nodup := by
  exact ⟨rfl, by decide⟩

/-- **C3 (amended).**  The duplicate-eliminating insertion itself does
satisfy the claim: inserting an API whose identity is already present
silently drops the incoming item and keeps the list (hence the
first-seen entry) unchanged; inserting a fresh identity appends it; and
identity-uniqueness is preserved by every such insertion.  (The claim as
stated fails for the produced list as a whole because `IgnoredItem`s and
config-injected APIs are added by plain append, per the
counterexample.) -/
theorem push_eliminating_duplicates_first_wins {F S T : Type}
    [DecidableEq F] [DecidableEq S] [DecidableEq T]
    (v : ApiVec F S T) (a : Api F S T)
    (h : ((v : List (Api F S T)).map Api.name).Nodup) :
    (a.name ∈ (v : List (Api F S T)).map Api.name →
      v.push_eliminating_duplicates a = v) ∧
    (a.name ∉ (v : List (Api F S T)).map Api.name →
      v.push_eliminating_duplicates a = (v : List (Api F S T)) ++ [a]) ∧
    (((v.push_eliminating_duplicates a : List (Api F S T)).map Api.name).Nodup) := by
  have hcond : ((v : List (Api F S T)).any (fun b => b.name = a.name) = true) ↔
      a.name ∈ (v : List (Api F S T)).map Api.name := by
    simp [List.any_eq_true, List.mem_map]
  refine ⟨?_, ?_, ?_⟩
  · intro hmem
    simp [ApiVec.push_eliminating_duplicates, hcond.mpr hmem]
  · intro hmem
    have hfalse : (v : List (Api F S T)).any (fun b => b.name = a.name) = false := by
      cases hx : (v : List (Api F S T)).any (fun b => b.name = a.name)
      · rfl
      · exact absurd (hcond.mp hx) hmem
    simp [ApiVec.push_eliminating_duplicates, hfalse]
  · by_cases hmem : a.name ∈ (v : List (Api F S T)).map Api.name
    · simpa [ApiVec.push_eliminating_duplicates, hcond.mpr hmem] using h
    · have hfalse : (v : List (Api F S T)).any (fun b => b.name = a.name) = false := by
        cases hx : (v : List (Api F S T)).any (fun b => b.name = a.name)
        · rfl
        · exact absurd (hcond.mp hx) hmem
      simp only [ApiVec.push_eliminating_duplicates, hfalse, Bool.false_eq_true,
        if_false, List.map_append, List.map_cons, List.map_nil]
      exact List.Nodup.append h (List.nodup_singleton _)
        (by simpa [List.disjoint_singleton] using hmem)

/-- Witness for the amended C3 theorem at a concrete list and item. -/
theorem push_eliminating_duplicates_first_wins_witness :
    (Api.name igX ∈ ([constApiW] : List UnanalyzedApi).map Api.name →
      ApiVec.push_eliminating_duplicates [constApiW] igX = [constApiW]) ∧
    (Api.name igX ∉ ([constApiW] : List UnanalyzedApi).map Api.name →
      ApiVec.push_eliminating_duplicates [constApiW] igX = [constApiW] ++ [igX]) ∧
    ((ApiVec.push_eliminating_duplicates [constApiW] igX).map Api.name).Nodup :=
  push_eliminating_duplicates_first_wins [constApiW] igX (by decide)

/-- A configuration whose block list contains the root-namespace name
`n`, with utilities suppressed. -/
def blockCfg : IncludeCppConfig := ⟨["n"], [], [], [], [], true⟩

/-- A constant declaration named `n`. -/
def blockedConst : ItemConst := ⟨"n", BindgenSemanticAttributes.plain, "1"⟩

/-- **C8 (counterexample).**  The blocklist filter is not applied to
every item kind: a constant whose cpp name `n` is on the block list is
still inserted (the `Item::Const` arm of `parse_item` pushes without any
blocklist check), so the produced list contains an API created from a
blocklisted declaration. -/
theorem parse_items_blocklisted_const_emitted :
    blockCfg.is_on_blocklist
      ((Api.Const (ApiName.new NamespaceR.new "n") blockedConst :
        UnanalyzedApi).name.to_cpp_name) = true ∧
    parse_items trivExt blockCfg [.Mod "root" (some [.Const blockedConst])] =
      .ok (.ok [.Const (ApiName.new NamespaceR.new "n") blockedConst]) := by
  exact ⟨rfl, rfl⟩

/-- Helper: a successful `api_name_qualified` yields exactly
`api_name`. -/
theorem api_name_qualified_ok (ext : ExternalFns) (ns : NamespaceR)
    (id : String) (attrs : BindgenSemanticAttributes) (n : ApiName)
    (h : api_name_qualified ext ns id attrs = .ok n) :
    n = api_name ns id attrs := by
  unfold api_name_qualified at h
  cases hv : ext.validate_ident_ok_for_cxx id <;> rw [hv] at h <;>
    simp_all

/-- **C8 (amended).**  The blocklist filter does govern struct and enum
declarations: a struct or enum whose cpp name is on the block list never
adds an API (the item either leaves the state unchanged or fails with a
per-item validation error); constants and type aliases, however, are
inserted without a blocklist check (see the counterexample). -/
theorem parse_item_blocklist_struct_enum (ext : ExternalFns)
    (cfg : IncludeCppConfig) (ns : NamespaceR) (st : PState)
    (s : ItemStruct) (e : ItemEnum)
    (hs : cfg.is_on_blocklist (QualifiedName.new ns s.ident).to_cpp_name = true)
    (he : cfg.is_on_blocklist (QualifiedName.new ns e.ident).to_cpp_name = true) :
    (parse_item ext cfg (.Struct s) ns st = .ok (.ok st) ∨
      ∃ err, parse_item ext cfg (.Struct s) ns st = .ok (.error err)) ∧
    (parse_item ext cfg (.Enum e) ns st = .ok (.ok st) ∨
      ∃ err, parse_item ext cfg (.Enum e) ns st = .ok (.error err)) := by
  constructor
  · by_cases hv : s.ident.endsWith "__bindgen_vtable"
    · left
      simp [parse_item, hv]
    · cases hq : api_name_qualified ext ns s.ident s.attrs with
      | error err =>
          right
          exact ⟨err, by simp [parse_item, hv, hq]⟩
      | ok name =>
          left
          have hn := api_name_qualified_ok ext ns s.ident s.attrs name hq
          subst hn
          by_cases hr : ns.is_empty && cfg.is_rust_type s.ident
          · simp [parse_item, hv, hq, hr]
          · by_cases hfd : spot_forward_declaration s.fields
            · simp [parse_item, hv, hq, hr, hfd, Api.name, api_name,
                ApiName.new_with_cpp_name, QualifiedName.new] at hs ⊢
              simp [hs]
            · simp [parse_item, hv, hq, hr, hfd, Api.name, api_name,
                ApiName.new_with_cpp_name, QualifiedName.new] at hs ⊢
              simp [hs]
  · cases hq : api_name_qualified ext ns e.ident e.attrs with
    | error err =>
        right
        exact ⟨err, by simp [parse_item, hq]⟩
    | ok name =>
        left
        have hn := api_name_qualified_ok ext ns e.ident e.attrs name hq
        subst hn
        simp [parse_item, hq, Api.name, api_name,
          ApiName.new_with_cpp_name, QualifiedName.new] at he ⊢
        simp [he]

/-- Witness for the amended C8 theorem: blocklisted struct and enum named
`n` in the root namespace leave the parser state untouched. -/
theorem parse_item_blocklist_struct_enum_witness :
    (parse_item trivExt blockCfg
        (.Struct ⟨"n", [], BindgenSemanticAttributes.plain⟩) NamespaceR.new
        ⟨ApiVec.new, ParseForeignMod.new NamespaceR.new⟩ =
        .ok (.ok ⟨ApiVec.new, ParseForeignMod.new NamespaceR.new⟩) ∨
      ∃ err, parse_item trivExt blockCfg
        (.Struct ⟨"n", [], BindgenSemanticAttributes.plain⟩) NamespaceR.new
        ⟨ApiVec.new, ParseForeignMod.new NamespaceR.new⟩ = .ok (.error err)) ∧
    (parse_item trivExt blockCfg
        (.Enum ⟨"n", BindgenSemanticAttributes.plain, "E"⟩) NamespaceR.new
        ⟨ApiVec.new, ParseForeignMod.new NamespaceR.new⟩ =
        .ok (.ok ⟨ApiVec.new, ParseForeignMod.new NamespaceR.new⟩) ∨
      ∃ err, parse_item trivExt blockCfg
        (.Enum ⟨"n", BindgenSemanticAttributes.plain, "E"⟩) NamespaceR.new
        ⟨ApiVec.new, ParseForeignMod.new NamespaceR.new⟩ = .ok (.error err)) :=
  parse_item_blocklist_struct_enum trivExt blockCfg NamespaceR.new
    ⟨ApiVec.new, ParseForeignMod.new NamespaceR.new⟩
    ⟨"n", [], BindgenSemanticAttributes.plain⟩
    ⟨"n", BindgenSemanticAttributes.plain, "E"⟩ rfl rfl

/-- **C9 (counterexample).**  `parse_items` does not fail on every input
whose shape differs from "a single top-level synthetic module wrapping
all content": a root module followed by a second top-level item is
accepted (the trailing item is ignored and per-item processing runs on
the module's content), and an empty input is accepted with an empty
output. -/
theorem parse_items_shape_not_fatal :
    parse_items trivExt emptyCfg
      [.Mod "root" (some [.Const blockedConst]), .OtherItem] =
      .ok (.ok [.Const (ApiName.new NamespaceR.new "n") blockedConst]) ∧
    parse_items trivExt emptyCfg [] = .ok (.ok ApiVec.new) := by
  exact ⟨rfl, rfl⟩

/-- **C9 (amended).**  When the first top-level item is not a module,
`parse_items` fails immediately with the fatal structural
`UnexpectedOuterItem` error — before any per-item processing, never
downgraded to a per-item error, and with no API list produced. -/
theorem parse_items_nonmod_first_item_fatal (ext : ExternalFns)
    (cfg : IncludeCppConfig) (item : Item) (items : List Item)
    (h : ∀ id c, item ≠ Item.Mod id c) :
    parse_items ext cfg (item :: items) = .ok (.error .UnexpectedOuterItem) := by
  cases item
  case Mod id c => exact absurd rfl (h id c)
  all_goals simp [parse_items, find_items_in_root]

/-- Witness for the amended C9 theorem: a lone non-module top-level item
is a fatal structural error. -/
theorem parse_items_nonmod_first_item_fatal_witness :
    parse_items trivExt emptyCfg [Item.OtherItem] =
      .ok (.error .UnexpectedOuterItem) :=
  parse_items_nonmod_first_item_fatal trivExt emptyCfg Item.OtherItem []
    (fun _ _ h => Item.noConfusion h)

/-- Helper: the must-generate check either passes — and every directive
appears among the produced APIs' external names — or fails with a
`DidNotGenerateAnything` error naming a directive that does not
appear. -/
theorem confirm_characterization (cfg : IncludeCppConfig)
    (apis : ApiVec Unit Unit Unit) :
    (confirm_all_generate_directives_obeyed cfg apis = .ok () ∧
      ∀ g ∈ cfg.must_generate_list,
        g ∈ (apis : List UnanalyzedApi).map (fun a => a.name.to_cpp_name)) ∨
    (∃ g ∈ cfg.must_generate_list,
      g ∉ (apis : List UnanalyzedApi).map (fun a => a.name.to_cpp_name) ∧
      confirm_all_generate_directives_obeyed cfg apis =
        .error (.DidNotGenerateAnything g)) := by
  unfold confirm_all_generate_directives_obeyed
  cases hfind : cfg.must_generate_list.find? (fun g =>
      ! ((apis : List UnanalyzedApi).map
          (fun a => a.name.to_cpp_name)).contains g) with
  | none =>
      left
      refine ⟨rfl, fun g hg => ?_⟩
      have := List.find?_eq_none.mp hfind g hg
      simp only [Bool.not_eq_true, Bool.not_eq_false, Bool.not_eq_false',
        Bool.not_eq_true'] at this
      exact List.elem_iff.mp this
  | some g =>
      right
      refine ⟨g, List.mem_of_find?_eq_some hfind, ?_, rfl⟩
      have hp := List.find?_some hfind
      simp only [Bool.not_eq_true'] at hp
      intro hmem
      have hc : ((apis : List UnanalyzedApi).map
          (fun a => a.name.to_cpp_name)).contains g = true :=
        List.elem_iff.mpr hmem
      rw [hp] at hc
      exact Bool.noConfusion hc

/-- **C2.**  Provided the structural unwrap succeeds and the tree walk
runs to completion (no panic), `parse_items` returns the fatal
"directive not satisfied" (`DidNotGenerateAnything`) error — and no API
list — if and only if some name in the configuration's must-generate
list does not appear among the external (cpp) names of the produced
APIs; and when every must-generate name appears, it returns the complete
`ApiVec` of the walk. -/
theorem parse_items_must_generate_check (ext : ExternalFns)
    (cfg : IncludeCppConfig) (items inner : List Item)
    (apis2 : ApiVec Unit Unit Unit)
    (hroot : find_items_in_root items = .ok (.ok inner))
    (hwalk : parse_mod_items ext cfg inner NamespaceR.new
      (add_apis_from_config cfg
        (if ¬ cfg.exclude_utilities then ext.generate_utilities cfg
         else ApiVec.new)) = .ok apis2) :
    ((∃ g, parse_items ext cfg items =
        .ok (.error (.DidNotGenerateAnything g))) ↔
      ∃ g ∈ cfg.must_generate_list,
        g ∉ (apis2 : List UnanalyzedApi).map (fun a => a.name.to_cpp_name)) ∧
    ((∀ g ∈ cfg.must_generate_list,
        g ∈ (apis2 : List UnanalyzedApi).map (fun a => a.name.to_cpp_name)) →
      parse_items ext cfg items = .ok (.ok apis2)) := by
  have hpi : parse_items ext cfg items =
      match confirm_all_generate_directives_obeyed cfg apis2 with
      | .error e => .ok (.error e)
      | .ok _ => .ok (.ok apis2) := by
    unfold parse_items
    rw [hroot]
    dsimp only
    rw [hwalk]
  rcases confirm_characterization cfg apis2 with ⟨hok, hall⟩ | ⟨g, hg, hmiss, herr⟩
  · rw [hok] at hpi
    constructor
    · constructor
      · rintro ⟨g, hgeq⟩
        rw [hpi] at hgeq
        exact absurd (Except.ok.inj hgeq) (by simp)
      · rintro ⟨g, hg, hmiss⟩
        exact absurd (hall g hg) hmiss
    · intro _
      exact hpi
  · rw [herr] at hpi
    constructor
    · constructor
      · intro _
        exact ⟨g, hg, hmiss⟩
      · intro _
        exact ⟨g, by rw [hpi]⟩
    · intro hall
      exact absurd (hall g hg) hmiss

/-- A configuration demanding generation of `Zed`, which nothing
produces. -/
def zedCfg : IncludeCppConfig := ⟨[], ["Zed"], [], [], [], true⟩

/-- Witness for C2 at a concrete input: the walk produces no APIs, so
the directive `Zed` is unsatisfied and the iff is inhabited on both
sides. -/
theorem parse_items_must_generate_check_witness :
    ((∃ g, parse_items trivExt zedCfg [Item.Mod "root" (some [])] =
        .ok (.error (.DidNotGenerateAnything g))) ↔
      ∃ g ∈ zedCfg.must_generate_list,
        g ∉ (ApiVec.new : List UnanalyzedApi).map
          (fun a => a.name.to_cpp_name)) ∧
    ((∀ g ∈ zedCfg.must_generate_list,
        g ∈ (ApiVec.new : List UnanalyzedApi).map
          (fun a => a.name.to_cpp_name)) →
      parse_items trivExt zedCfg [Item.Mod "root" (some [])] =
        .ok (.ok ApiVec.new)) :=
  parse_items_must_generate_check trivExt zedCfg
    [Item.Mod "root" (some [])] [] ApiVec.new rfl rfl

/-- A struct named `Foo` whose only field is the `_unused` sentinel. -/
def fooFwdStruct : ItemStruct :=
  ⟨"Foo", [⟨some "_unused", BindgenSemanticAttributes.plain⟩],
    BindgenSemanticAttributes.plain⟩

/-- **C4.**  A struct declaration with a named `_unused` sentinel field
is never classified as a `Struct` API: under any configuration and
validator, a successful `parse_item` on it either leaves the API list
unchanged or appends exactly one `ForwardDeclaration` carrying the
struct's name.  In particular, parsing `struct Foo` rooted at namespace
`a::b` with a single `_unused` field yields exactly one
`ForwardDeclaration` API named `a::b::Foo`. -/
theorem parse_struct_unused_forward_declaration (ext : ExternalFns)
    (cfg : IncludeCppConfig) (s : ItemStruct) (ns : NamespaceR) (st : PState)
    (h : spot_forward_declaration s.fields = true) :
    (∀ r, parse_item ext cfg (.Struct s) ns st = .ok (.ok r) →
      r.apis = st.apis ∨
      r.apis = (st.apis : List UnanalyzedApi) ++
        [.ForwardDeclaration (api_name ns s.ident s.attrs)]) ∧
    parse_items trivExt emptyCfg
      [.Mod "root" (some [.Mod "a" (some [.Mod "b"
        (some [.Struct fooFwdStruct])])])] =
      .ok (.ok [.ForwardDeclaration ⟨⟨["a", "b"], "Foo"⟩, none⟩]) := by
  constructor
  · intro r hr
    by_cases hv : s.ident.endsWith "__bindgen_vtable"
    · left
      simp [parse_item, hv] at hr
      rw [← hr]
    · cases hq : api_name_qualified ext ns s.ident s.attrs with
      | error e => simp [parse_item, hv, hq] at hr
      | ok name =>
          by_cases hrt : ns.is_empty && cfg.is_rust_type s.ident
          · left
            simp [parse_item, hv, hq, hrt] at hr
            rw [← hr]
          · have hn := api_name_qualified_ok ext ns s.ident s.attrs name hq
            subst hn
            by_cases hb : cfg.is_on_blocklist
              ((Api.ForwardDeclaration (api_name ns s.ident s.attrs) :
                UnanalyzedApi).name.to_cpp_name)
            · left
              simp [parse_item, hv, hq, hrt, h, hb] at hr
              rw [← hr]
            · simp [parse_item, hv, hq, hrt, h, hb] at hr
              rw [← hr]
              simp only [ApiVec.push_eliminating_duplicates]
              split
              · exact Or.inl rfl
              · exact Or.inr rfl
  · rfl

/-- Witness for C4 at a concrete struct in namespace `a::b`. -/
theorem parse_struct_unused_forward_declaration_witness :
    (∀ r, parse_item trivExt emptyCfg (.Struct fooFwdStruct) ["a", "b"]
        ⟨ApiVec.new, ParseForeignMod.new ["a", "b"]⟩ = .ok (.ok r) →
      r.apis = (⟨ApiVec.new, ParseForeignMod.new ["a", "b"]⟩ : PState).apis ∨
      r.apis = ((⟨ApiVec.new, ParseForeignMod.new ["a", "b"]⟩ : PState).apis :
          List UnanalyzedApi) ++
        [.ForwardDeclaration (api_name ["a", "b"] fooFwdStruct.ident
          fooFwdStruct.attrs)]) ∧
    parse_items trivExt emptyCfg
      [.Mod "root" (some [.Mod "a" (some [.Mod "b"
        (some [.Struct fooFwdStruct])])])] =
      .ok (.ok [.ForwardDeclaration ⟨⟨["a", "b"], "Foo"⟩, none⟩]) :=
  parse_struct_unused_forward_declaration trivExt emptyCfg fooFwdStruct
    ["a", "b"] ⟨ApiVec.new, ParseForeignMod.new ["a", "b"]⟩ rfl

/-- Build the nested `UseTree.Path` spine for a segment list. -/
def mkUsePath : List String → UseTree → UseTree
  | [], t => t
  | s :: ss, t => .Path s (mkUsePath ss t)

/-- Helper: walking a `Path` spine accumulates its segments. -/
theorem parse_use_tree_path_accum (ns : NamespaceR)
    (attrs : BindgenSemanticAttributes) (apis : ApiVec Unit Unit Unit)
    (l : List String) (t : UseTree) (segs : List String) :
    parse_use_tree ns attrs apis segs (mkUsePath l t) =
      parse_use_tree ns attrs apis (segs ++ l) t := by
  induction l generalizing segs with
  | nil => simp [mkUsePath]
  | cons s ss ih =>
      rw [mkUsePath, parse_use_tree, ih]
      simp

/-- **C5.**  A renaming use declaration `use self::super::rest::old as
new` whose reconstructed old name (`rest` as namespace, `old` as
identifier) equals the new qualified name is rejected with the
recoverable per-item `InfinitelyRecursiveTypedef` error, whose context
carries the new identifier: no `Typedef` API is produced, no panic or
fatal error occurs, and — because the context carries an identifier —
the item surfaces in the namespace walk as exactly one `IgnoredItem`. -/
theorem parse_use_infinitely_recursive_typedef (ext : ExternalFns)
    (cfg : IncludeCppConfig) (ns : NamespaceR)
    (attrs : BindgenSemanticAttributes) (st : PState) (rest : List String)
    (oldId newId : String)
    (heq : QualifiedName.new ns newId = QualifiedName.from_type_path rest oldId) :
    parse_item ext cfg
      (.Use ⟨mkUsePath ("self" :: "super" :: rest) (.Rename oldId newId),
        attrs⟩) ns st =
      .ok (.error ⟨.InfinitelyRecursiveTypedef (QualifiedName.new ns newId),
        some (ErrorContext.Item newId)⟩) ∧
    parse_mod_loop ext cfg
      [.Use ⟨mkUsePath ("self" :: "super" :: rest) (.Rename oldId newId),
        attrs⟩] ns st [] =
      .ok (st, [.IgnoredItem (ApiName.new ns newId)
        (.InfinitelyRecursiveTypedef (QualifiedName.new ns newId))
        (ErrorContext.Item newId)]) := by
  have h1 : parse_item ext cfg
      (.Use ⟨mkUsePath ("self" :: "super" :: rest) (.Rename oldId newId),
        attrs⟩) ns st =
      .ok (.error ⟨.InfinitelyRecursiveTypedef (QualifiedName.new ns newId),
        some (ErrorContext.Item newId)⟩) := by
    simp only [parse_item]
    rw [parse_use_tree_path_accum ns attrs st.apis ("self" :: "super" :: rest)
      (.Rename oldId newId) []]
    simp [parse_use_tree, heq]
  refine ⟨h1, ?_⟩
  simp [parse_mod_loop, h1, ignored_item, ErrorContext.get_id]

/-- Witness for C5: `use self::super::m::T as T` inside namespace `m`. -/
theorem parse_use_infinitely_recursive_typedef_witness :
    parse_item trivExt emptyCfg
      (.Use ⟨mkUsePath ("self" :: "super" :: ["m"]) (.Rename "T" "T"),
        BindgenSemanticAttributes.plain⟩) ["m"]
      ⟨ApiVec.new, ParseForeignMod.new ["m"]⟩ =
      .ok (.error ⟨.InfinitelyRecursiveTypedef (QualifiedName.new ["m"] "T"),
        some (ErrorContext.Item "T")⟩) ∧
    parse_mod_loop trivExt emptyCfg
      [.Use ⟨mkUsePath ("self" :: "super" :: ["m"]) (.Rename "T" "T"),
        BindgenSemanticAttributes.plain⟩] ["m"]
      ⟨ApiVec.new, ParseForeignMod.new ["m"]⟩ [] =
      .ok (⟨ApiVec.new, ParseForeignMod.new ["m"]⟩,
        [.IgnoredItem (ApiName.new ["m"] "T")
          (.InfinitelyRecursiveTypedef (QualifiedName.new ["m"] "T"))
          (ErrorContext.Item "T")]) :=
  parse_use_infinitely_recursive_typedef trivExt emptyCfg ["m"]
    BindgenSemanticAttributes.plain ⟨ApiVec.new, ParseForeignMod.new ["m"]⟩
    ["m"] "T" "T" rfl

/-- Helper: duplicate-eliminating insertion only ever appends (possibly
nothing). -/
theorem push_eliminating_duplicates_append {F S T : Type} [DecidableEq F]
    [DecidableEq S] [DecidableEq T] (v : ApiVec F S T) (a : Api F S T) :
    ∃ s, (v.push_eliminating_duplicates a : List (Api F S T)) =
      (v : List (Api F S T)) ++ s := by
  unfold ApiVec.push_eliminating_duplicates
  split
  · exact ⟨[], by simp⟩
  · exact ⟨[a], rfl⟩

/-- Helper: a successful use-tree walk only ever appends to the API
list. -/
theorem parse_use_tree_apis_mono (ns : NamespaceR)
    (attrs : BindgenSemanticAttributes) (apis : ApiVec Unit Unit Unit)
    (segs : List String) (t : UseTree) (apis' : ApiVec Unit Unit Unit)
    (h : parse_use_tree ns attrs apis segs t = .ok (.ok apis')) :
    ∃ s, (apis' : List UnanalyzedApi) = (apis : List UnanalyzedApi) ++ s := by
  induction t generalizing segs with
  | Path s0 t0 ih =>
      rw [parse_use_tree] at h
      exact ih _ h
  | Name id =>
      rw [parse_use_tree] at h
      by_cases hid : id = "root"
      · simp [hid] at h
        exact ⟨[], by simp [h]⟩
      · simp [hid] at h
  | OtherShape =>
      simp [parse_use_tree] at h
  | Rename oldId newId =>
      simp only [parse_use_tree] at h
      cases segs with
      | nil => simp at h
      | cons s0 segs1 =>
          by_cases hs0 : s0 = "self"
          · subst hs0
            cases segs1 with
            | nil => simp at h
            | cons s1 rest =>
                by_cases hs1 : s1 = "super"
                · subst hs1
                  by_cases heq : QualifiedName.new ns newId =
                      QualifiedName.from_type_path rest oldId
                  · simp [heq] at h
                  · simp [heq] at h
                    rw [← h]
                    exact push_eliminating_duplicates_append apis _
                · simp [hs1] at h
          · simp [hs0] at h

mutual

/-- Helper (mutual): a successful `parse_item` only ever appends to the
API list. -/
theorem parse_item_apis_mono (ext : ExternalFns) (cfg : IncludeCppConfig)
    (item : Item) (ns : NamespaceR) (st st' : PState)
    (h : parse_item ext cfg item ns st = .ok (.ok st')) :
    ∃ s, (st'.apis : List UnanalyzedApi) =
      (st.apis : List UnanalyzedApi) ++ s := by
  cases item
  next l =>
      simp [parse_item] at h
      rw [← h]
      exact ⟨[], by simp⟩
  next s =>
      by_cases hv : s.ident.endsWith "__bindgen_vtable"
      · simp [parse_item, hv] at h
        rw [← h]
        exact ⟨[], by simp⟩
      · cases hq : api_name_qualified ext ns s.ident s.attrs with
        | error e => simp [parse_item, hv, hq] at h
        | ok name =>
            by_cases hrt : ns.is_empty && cfg.is_rust_type s.ident
            · simp [parse_item, hv, hq, hrt] at h
              rw [← h]
              exact ⟨[], by simp⟩
            · by_cases hb : cfg.is_on_blocklist name.name.to_cpp_name
              · by_cases hfd : spot_forward_declaration s.fields
                · simp [parse_item, hv, hq, hrt, hfd, hb, Api.name] at h
                  rw [← h]
                  exact ⟨[], by simp⟩
                · simp [parse_item, hv, hq, hrt, hfd, hb, Api.name] at h
                  rw [← h]
                  exact ⟨[], by simp⟩
              · by_cases hfd : spot_forward_declaration s.fields
                · simp [parse_item, hv, hq, hrt, hfd, hb, Api.name] at h
                  rw [← h]
                  exact push_eliminating_duplicates_append st.apis _
                · simp [parse_item, hv, hq, hrt, hfd, hb, Api.name] at h
                  rw [← h]
                  exact push_eliminating_duplicates_append st.apis _
  next e =>
      cases hq : api_name_qualified ext ns e.ident e.attrs with
      | error err => simp [parse_item, hq] at h
      | ok name =>
          by_cases hb : cfg.is_on_blocklist name.name.to_cpp_name
          · simp [parse_item, hq, hb, Api.name] at h
            rw [← h]
            exact ⟨[], by simp⟩
          · simp [parse_item, hq, hb, Api.name] at h
            rw [← h]
            exact push_eliminating_duplicates_append st.apis _
  next p =>
      simp [parse_item] at h
      rw [← h]
      exact ⟨[], by simp⟩
  next id content =>
      cases content with
      | none =>
          simp [parse_item] at h
          rw [← h]
          exact ⟨[], by simp⟩
      | some items =>
          cases hl : parse_mod_loop ext cfg items (ns.push id)
              ⟨st.apis, ParseForeignMod.new (ns.push id)⟩ [] with
          | error p => simp [parse_item, hl] at h
          | ok pr =>
              obtain ⟨st1, more1⟩ := pr
              simp [parse_item, hl] at h
              obtain ⟨sfx, hsfx⟩ := parse_mod_loop_apis_mono ext cfg items
                (ns.push id) ⟨st.apis, ParseForeignMod.new (ns.push id)⟩ []
                st1 more1 hl
              rw [← h]
              refine ⟨sfx ++ more1 ++ ext.foreign_mod_synth st1.mc.ns
                st1.mc.foreign_items st1.mc.impl_blocks, ?_⟩
              simp only [ParseForeignMod.finished, ApiVec.extend]
              simp only [PState.apis] at hsfx
              rw [hsfx]
              simp [List.append_assoc]
  next u =>
      cases hu : parse_use_tree ns u.attrs st.apis [] u.tree with
      | error p => simp [parse_item, hu] at h
      | ok r =>
          cases r with
          | error e => simp [parse_item, hu] at h
          | ok apis1 =>
              simp [parse_item, hu] at h
              obtain ⟨sfx, hsfx⟩ := parse_use_tree_apis_mono ns u.attrs
                st.apis [] u.tree apis1 hu
              rw [← h]
              exact ⟨sfx, hsfx⟩
  next c =>
      simp [parse_item] at h
      rw [← h]
      exact push_eliminating_duplicates_append st.apis _
  next t =>
      simp [parse_item] at h
      rw [← h]
      exact push_eliminating_duplicates_append st.apis _
  next => simp [parse_item] at h

/-- Helper (mutual): a completed namespace item loop only ever appends
to the API list. -/
theorem parse_mod_loop_apis_mono (ext : ExternalFns) (cfg : IncludeCppConfig)
    (items : List Item) (ns : NamespaceR) (st : PState)
    (more : List UnanalyzedApi) (st' : PState) (more' : List UnanalyzedApi)
    (h : parse_mod_loop ext cfg items ns st more = .ok (st', more')) :
    ∃ s, (st'.apis : List UnanalyzedApi) =
      (st.apis : List UnanalyzedApi) ++ s := by
  cases items with
  | nil =>
      simp [parse_mod_loop] at h
      rw [← h.1]
      exact ⟨[], by simp⟩
  | cons it rest =>
      cases hi : parse_item ext cfg it ns st with
      | error p => simp [parse_mod_loop, hi] at h
      | ok r =>
          cases r with
          | ok st1 =>
              simp only [parse_mod_loop, hi] at h
              obtain ⟨s1, hs1⟩ := parse_item_apis_mono ext cfg it ns st st1 hi
              obtain ⟨s2, hs2⟩ := parse_mod_loop_apis_mono ext cfg rest ns st1
                more st' more' h
              exact ⟨s1 ++ s2, by rw [hs2, hs1, List.append_assoc]⟩
          | error cewc =>
              obtain ⟨e, ctx⟩ := cewc
              cases ctx with
              | none =>
                  simp only [parse_mod_loop, hi] at h
                  exact parse_mod_loop_apis_mono ext cfg rest ns st more
                    st' more' h
              | some c =>
                  simp only [parse_mod_loop, hi] at h
                  exact parse_mod_loop_apis_mono ext cfg rest ns st
                    (more ++ (ignored_item ns c e).toList) st' more' h

end

/-- **C6.**  A struct declaration in the root (empty) namespace whose
identifier matches a configured pass-through Rust type is never emitted
as a `Struct` API — `parse_item` either leaves the state entirely
unchanged or fails with a per-item validation error — and every
configured pass-through type yields a `RustType` API (injected from the
configuration before the tree walk) that is present in any successfully
produced output list. -/
theorem rust_type_struct_not_emitted :
    (∀ (ext : ExternalFns) (cfg : IncludeCppConfig) (s : ItemStruct)
        (ns : NamespaceR) (st : PState),
      ns.is_empty = true → cfg.is_rust_type s.ident = true →
      parse_item ext cfg (.Struct s) ns st = .ok (.ok st) ∨
      ∃ e, parse_item ext cfg (.Struct s) ns st = .ok (.error e)) ∧
    (∀ (ext : ExternalFns) (cfg : IncludeCppConfig) (items : List Item)
        (apis : ApiVec Unit Unit Unit),
      parse_items ext cfg items = .ok (.ok apis) →
      ∀ p ∈ cfg.rust_types,
        (Api.RustType (ApiName.new_in_root_namespace p.get_final_ident) p :
          UnanalyzedApi) ∈ (apis : List UnanalyzedApi)) := by
  constructor
  · intro ext cfg s ns st hns hrt
    by_cases hv : s.ident.endsWith "__bindgen_vtable"
    · left
      simp [parse_item, hv]
    · cases hq : api_name_qualified ext ns s.ident s.attrs with
      | error e =>
          right
          exact ⟨e, by simp [parse_item, hv, hq]⟩
      | ok name =>
          left
          have hnil : ns = [] := by
            simpa [NamespaceR.is_empty, List.isEmpty_iff] using hns
          subst hnil
          simp [parse_item, hv, hq, hrt, NamespaceR.is_empty]
  · intro ext cfg items apis hp p hpmem
    have hmem1 : (Api.RustType (ApiName.new_in_root_namespace
        p.get_final_ident) p : UnanalyzedApi) ∈
        (add_apis_from_config cfg
          (if ¬ cfg.exclude_utilities then ext.generate_utilities cfg
           else ApiVec.new) : List UnanalyzedApi) := by
      unfold add_apis_from_config ApiVec.extend
      exact List.mem_append_right _ (List.mem_map_of_mem _ hpmem)
    cases hroot : find_items_in_root items with
    | error q => simp [parse_items, hroot] at hp
    | ok r =>
      cases r with
      | error e => simp [parse_items, hroot] at hp
      | ok inner =>
        rw [parse_items, hroot] at hp
        dsimp only at hp
        cases hw : parse_mod_items ext cfg inner NamespaceR.new
            (add_apis_from_config cfg
              (if ¬ cfg.exclude_utilities then ext.generate_utilities cfg
               else ApiVec.new)) with
        | error q =>
            rw [hw] at hp
            exact absurd hp (by simp)
        | ok apis2 =>
          rw [hw] at hp
          dsimp only at hp
          cases hc : confirm_all_generate_directives_obeyed cfg apis2 with
          | error e =>
              rw [hc] at hp
              exact absurd hp (by simp)
          | ok u =>
            rw [hc] at hp
            simp only [Except.ok.injEq] at hp
            cases hl : parse_mod_loop ext cfg inner NamespaceR.new
                ⟨add_apis_from_config cfg
                  (if ¬ cfg.exclude_utilities then ext.generate_utilities cfg
                   else ApiVec.new),
                  ParseForeignMod.new NamespaceR.new⟩ [] with
            | error q =>
                rw [parse_mod_items, hl] at hw
                exact absurd hw (by simp)
            | ok pr =>
              obtain ⟨st1, more1⟩ := pr
              rw [parse_mod_items, hl] at hw
              simp only [Except.ok.injEq] at hw
              obtain ⟨sfx, hsfx⟩ := parse_mod_loop_apis_mono ext cfg inner
                NamespaceR.new
                ⟨add_apis_from_config cfg
                  (if ¬ cfg.exclude_utilities then ext.generate_utilities cfg
                   else ApiVec.new),
                  ParseForeignMod.new NamespaceR.new⟩ [] st1 more1 hl
              rw [← hp, ← hw]
              simp only [ParseForeignMod.finished, ApiVec.extend]
              refine List.mem_append_left _ (List.mem_append_left _ ?_)
              simp only [PState.apis] at hsfx
              rw [hsfx]
              exact List.mem_append_left _ hmem1

/-- A configuration declaring `Foo` as a pass-through Rust type. -/
def rtCfg : IncludeCppConfig := ⟨[], [], [], [], [⟨[], "Foo"⟩], true⟩

/-- Witness for C6: `struct Foo` in the root namespace under `rtCfg` is
skipped, and the configured `RustType Foo` is in the parse output. -/
theorem rust_type_struct_not_emitted_witness :
    (parse_item trivExt rtCfg
        (.Struct ⟨"Foo", [], BindgenSemanticAttributes.plain⟩)
        NamespaceR.new ⟨ApiVec.new, ParseForeignMod.new NamespaceR.new⟩ =
        .ok (.ok ⟨ApiVec.new, ParseForeignMod.new NamespaceR.new⟩) ∨
      ∃ e, parse_item trivExt rtCfg
        (.Struct ⟨"Foo", [], BindgenSemanticAttributes.plain⟩)
        NamespaceR.new ⟨ApiVec.new, ParseForeignMod.new NamespaceR.new⟩ =
        .ok (.error e)) ∧
    ((Api.RustType (ApiName.new_in_root_namespace
        (RustPath.get_final_ident ⟨[], "Foo"⟩)) ⟨[], "Foo"⟩ : UnanalyzedApi) ∈
      ([.RustType (ApiName.new_in_root_namespace "Foo") ⟨[], "Foo"⟩] :
        List UnanalyzedApi)) :=
  ⟨rust_type_struct_not_emitted.1 trivExt rtCfg
      ⟨"Foo", [], BindgenSemanticAttributes.plain⟩ NamespaceR.new
      ⟨ApiVec.new, ParseForeignMod.new NamespaceR.new⟩ rfl rfl,
    rust_type_struct_not_emitted.2 trivExt rtCfg
      [.Mod "root" (some [.Struct ⟨"Foo", [], BindgenSemanticAttributes.plain⟩])]
      [.RustType (ApiName.new_in_root_namespace "Foo") ⟨[], "Foo"⟩]
      rfl ⟨[], "Foo"⟩ (by decide)⟩

end Autocxx
